import Mathlib

/-!
Verification of the `no-unused-vars` static-analysis engine described in
`spec.md`.  The repository ships the rule's full test suite
(src/unnamed/part_001) but not the rule implementation itself, so the
engine below is modelled from the specification (sections 3-4.5 of
spec.md), with the shipped test suite used as the authority on concrete
behaviour.  Machine data (scope graphs, bindings, references) follows the
spec's data model: the external parser/scope-resolver is assumed to have
already produced bindings with resolved references, so programs appear
here as scope graphs, and each concrete test program is encoded as the
scope graph the parser produces for it.
-/

set_option maxRecDepth 8000

namespace NoUnusedVars

/-- Modelled from the spec: a tiny total pattern language standing in for the
ignore-pattern regular expressions of §4.3 (the real engine takes JS regexes;
the configurations exercised by the claims only use anchored prefixes,
anchored suffixes, plain substrings and alternation). -/
inductive Pat where
  | startsWith : String → Pat
  | endsWith : String → Pat
  | containsStr : String → Pat
  | alt : Pat → Pat → Pat
deriving Repr, DecidableEq

/-- Whether the first character list occurs as a contiguous run inside the
second. -/
def hasInfix (p : List Char) : List Char → Bool
  | [] => p.isEmpty
  | c :: t => p.isPrefixOf (c :: t) || hasInfix p t

/-- Anchored-prefix test on names. -/
def strStartsWith (s p : String) : Bool :=
  p.data.isPrefixOf s.data

/-- Anchored-suffix test on names. -/
def strEndsWith (s p : String) : Bool :=
  p.data.reverse.isPrefixOf s.data.reverse

/-- Substring test on names. -/
def strContains (s p : String) : Bool :=
  hasInfix p.data s.data

/-- Whether a name matches a pattern. -/
def Pat.test : Pat → String → Bool
  | .startsWith p, s => strStartsWith s p
  | .endsWith p, s => strEndsWith s p
  | .containsStr p, s => strContains s p
  | .alt a b, s => a.test s || b.test s

/-- An ignore pattern: the matcher plus the raw regex text used when the
violation message names the pattern (e.g. `/^_/u`). -/
structure IgnorePattern where
  raw : String
  pat : Pat
deriving Repr, DecidableEq

/-- Test an optional ignore pattern; an absent pattern matches nothing. -/
def testOpt : Option IgnorePattern → String → Bool
  | none, _ => false
  | some ip, s => ip.pat.test s

/-- Modelled from the spec (§6): the `vars` option. -/
inductive VarsOpt where
  | all
  | localOnly
deriving Repr, DecidableEq

/-- Modelled from the spec (§6): the `args` option. -/
inductive ArgsOpt where
  | all
  | afterUsed
  | noneArg
deriving Repr, DecidableEq

/-- Modelled from the spec (§6): the `caughtErrors` option. -/
inductive CaughtOpt where
  | all
  | noneCaught
deriving Repr, DecidableEq

/-- Modelled from the spec (§3, ExemptionPolicy / §6 Input): the rule
configuration, parsed once and immutable.  Defaults are the rule's
documented defaults (`vars: "all"`, `args: "after-used"`,
`caughtErrors: "all"`, all toggles off, no patterns). -/
structure Config where
  vars : VarsOpt := .all
  args : ArgsOpt := .afterUsed
  caughtErrors : CaughtOpt := .all
  varsIgnorePattern : Option IgnorePattern := none
  argsIgnorePattern : Option IgnorePattern := none
  caughtErrorsIgnorePattern : Option IgnorePattern := none
  destructuredArrayIgnorePattern : Option IgnorePattern := none
  ignoreRestSiblings : Bool := false
  ignoreClassWithStaticInitBlock : Bool := false
  ignoreUsingDeclarations : Bool := false
  reportUsedIgnorePattern : Bool := false
deriving Repr, DecidableEq

/-- The rule's default configuration. -/
def defaultCfg : Config := {}

/-- Modelled from the spec (§3, Reference): one syntactic occurrence of a
binding's name, with the attributes the Usage Classifier (§4.2) consumes.
`selfUpdate` marks a self-contained compound assignment /
increment-decrement / self-assignment whose right-hand side references only
the same binding; `valueConsumed` marks that the written value is
subsequently read by a distinct statement or is a sequence expression's
final, consumed value; `logicalAssign` marks a short-circuiting logical
compound assignment (`||=`, `&&=`, `??=`), which reads the binding to
decide whether to assign; `insideOwnBody` marks a reference that occurs
inside the binding's own declaration body (recursive self-reference). -/
structure Reference where
  isRead : Bool := false
  isWrite : Bool := false
  selfUpdate : Bool := false
  valueConsumed : Bool := false
  logicalAssign : Bool := false
  insideOwnBody : Bool := false
  line : Nat := 1
  col : Nat := 1
deriving Repr, DecidableEq

/-- Modelled from the spec (§4.4, Auto-fix): the syntactic context that
decides whether a dead binding can be removed and which character range the
removal covers.  `wholeDecl` is a sole binding whose entire declaration
statement can be dropped; `listSlot` is one slot among several in a
declarator / parameter / pattern list, with the range already including the
comma to elide; each carries whether the initializer (or destructuring
source) has side effects, in which case no fix may be offered.
`unsafeSyntax` marks a context where any removal would corrupt the
surrounding syntax or change program semantics (e.g. removal would promote
a following string literal into a directive prologue), so no fix is
offered. -/
inductive FixContext where
  | wholeDecl : Nat → Nat → Bool → FixContext
  | listSlot : Nat → Nat → Bool → FixContext
  | unsafeSyntax : FixContext
deriving Repr, DecidableEq

/-- A fix context is side-effect free when it is a removable context whose
initializer has no side effects. -/
def FixContext.sideEffectFree : FixContext → Bool
  | .wholeDecl _ _ se => !se
  | .listSlot _ _ se => !se
  | .unsafeSyntax => false

/-- Modelled from the spec (§3, Violation / §4.4): a textual removal edit
over the original character range. -/
structure Fix where
  start : Nat
  stop : Nat
  text : String
deriving Repr, DecidableEq

/-- Apply an edit to the original source text (the host's job; reproduced
here to check the fixed output the test suite expects). -/
def applyFix (src : String) (f : Fix) : String :=
  ⟨src.data.take f.start ++ f.text.data ++ src.data.drop f.stop⟩

/-- Modelled from the spec (§4.4): synthesize the auto-fix edit for a
binding's syntactic context, or decline when removal is unsafe. -/
def mkFix : FixContext → Option Fix
  | .wholeDecl s e se => if se then none else some { start := s, stop := e, text := "" }
  | .listSlot s e se => if se then none else some { start := s, stop := e, text := "" }
  | .unsafeSyntax => none

/-- Modelled from the spec (§3, Binding): a named declaration with the
attributes the classifier and the ignore-pattern resolver consume.
`fromCatch` covers the catch parameter and every binding destructured from
it; `inArrayPattern` covers bindings declared as an array-destructuring
element or written through one; `paramIndex` is the positional index for
function parameters (for the `after-used` policy); `hasRestSibling`
marks a binding destructured alongside an object rest element. -/
structure Binding where
  name : String
  refs : List Reference := []
  exported : Bool := false
  declLine : Nat := 1
  declCol : Nat := 1
  fromCatch : Bool := false
  isParam : Bool := false
  paramIndex : Option Nat := none
  inArrayPattern : Bool := false
  hasRestSibling : Bool := false
  classWithStaticBlock : Bool := false
  usingDecl : Bool := false
  inGlobalScope : Bool := false
  fixCtx : FixContext := .unsafeSyntax
deriving Repr, DecidableEq

/-- Modelled from the spec (§3, UsageVerdict). -/
inductive Verdict where
  | used
  | unusedDefined
  | unusedAssigned
deriving Repr, DecidableEq

/-- Modelled from the spec (§4.2): a reference is a genuine read when it
syntactically reads the binding, does not occur inside the binding's own
declaration body, and is not a self-referential update whose value is
discarded (a short-circuiting logical assignment reads the binding to
decide whether to assign, so it always counts). -/
def isGenuineRead (r : Reference) : Bool :=
  r.isRead && !r.insideOwnBody && (!r.selfUpdate || r.valueConsumed || r.logicalAssign)

/-- Modelled from the spec (§4.2, Usage Classifier): exported bindings are
always used; otherwise a binding is used iff it has a genuine read;
otherwise it is `unusedAssigned` when some reference writes it and
`unusedDefined` when it is never written. -/
def classify (b : Binding) : Verdict :=
  if b.exported then .used
  else if b.refs.any isGenuineRead then .used
  else if b.refs.any (fun r => r.isWrite) then .unusedAssigned
  else .unusedDefined

/-- Modelled from the spec (§4.5 / scope graph): one lexical scope's
declared bindings, in declaration order. -/
structure Scope where
  bindings : List Binding
deriving Repr, DecidableEq

/-- Modelled from the spec (§4.1): the scope graph of one source unit,
flattened depth-first with parents before children. -/
structure Program where
  scopes : List Scope
deriving Repr, DecidableEq

/-- Index of the last used positional parameter of a scope (for the
`args: "after-used"` policy). -/
def lastUsedIdx : List Binding → Option Nat
  | [] => none
  | b :: bs =>
    let rest := lastUsedIdx bs
    match classify b, b.paramIndex with
    | .used, some i =>
      match rest with
      | some j => some (max i j)
      | none => some i
    | _, _ => rest

/-- Modelled from the spec (§4.3 / §6): whether the binding's kind is
enabled for checking at all under the configured `vars` / `args` /
`caughtErrors` enums (`lu` is the scope's last used parameter index, for
`after-used`). -/
def kindEnabled (cfg : Config) (lu : Option Nat) (b : Binding) : Bool :=
  if b.fromCatch then
    match cfg.caughtErrors with
    | .all => true
    | .noneCaught => false
  else if b.isParam then
    match cfg.args with
    | .all => true
    | .noneArg => false
    | .afterUsed =>
      match lu, b.paramIndex with
      | some l, some i => decide (l < i)
      | _, _ => true
  else
    match cfg.vars with
    | .all => true
    | .localOnly => !b.inGlobalScope

/-- Modelled from the spec (§4.3): whether the binding's name matches its
applicable ignore pattern.  The destructured-array pattern is consulted
first for every binding declared or written through an array pattern
(taking priority even for catch-clause bindings, per the shipped tests);
otherwise the binding's kind selects exactly one category: caught errors
use only the caught-errors pattern, parameters only the args pattern, and
all remaining variables the vars pattern. -/
def matchesIgnore (cfg : Config) (b : Binding) : Bool :=
  (b.inArrayPattern && testOpt cfg.destructuredArrayIgnorePattern b.name)
  || (if b.fromCatch then testOpt cfg.caughtErrorsIgnorePattern b.name
      else if b.isParam then testOpt cfg.argsIgnorePattern b.name
      else testOpt cfg.varsIgnorePattern b.name)

/-- Modelled from the spec (§4.3): full exemption decision for an unused
binding: kind disabled, name matches the applicable ignore pattern, rest
sibling of an object rest element with `ignoreRestSiblings`, class with a
static initialization block with `ignoreClassWithStaticInitBlock`, or a
`using` declaration with `ignoreUsingDeclarations`. -/
def exemptUnused (cfg : Config) (lu : Option Nat) (b : Binding) : Bool :=
  !kindEnabled cfg lu b
  || matchesIgnore cfg b
  || (cfg.ignoreRestSiblings && b.hasRestSibling)
  || (cfg.ignoreClassWithStaticInitBlock && b.classWithStaticBlock)
  || (cfg.ignoreUsingDeclarations && b.usingDecl)

/-- Message identifiers of the rule. -/
inductive MsgId where
  | unusedVar
  | usedIgnoredVar
deriving Repr, DecidableEq

/-- Modelled from the spec (§3, Violation): one output record. -/
structure Violation where
  varName : String
  messageId : MsgId
  action : String
  additional : String
  line : Nat
  col : Nat
  fix : Option Fix
deriving Repr, DecidableEq

/-- Render the explanatory suffix naming an ignore pattern for an unused
violation. -/
def allowedSuffix (noun : String) : Option IgnorePattern → String
  | none => ""
  | some ip => ". Allowed unused " ++ noun ++ " must match /" ++ ip.raw ++ "/u"

/-- Modelled from the spec (§4.4, Message): the suffix of an unused
violation names the ignore pattern of the binding's category, the
destructured-array category taking priority for array-pattern bindings. -/
def suffixUnused (cfg : Config) (b : Binding) : String :=
  if b.inArrayPattern && cfg.destructuredArrayIgnorePattern.isSome then
    allowedSuffix ("elements of array destructuring") cfg.destructuredArrayIgnorePattern
  else if b.fromCatch then
    allowedSuffix ("caught errors") cfg.caughtErrorsIgnorePattern
  else if b.isParam then
    allowedSuffix ("args") cfg.argsIgnorePattern
  else
    allowedSuffix ("vars") cfg.varsIgnorePattern

/-- Modelled from the spec (§4.3, reportUsedIgnorePattern): for a used
binding, the category whose configured pattern its name matches, as
(category noun, raw pattern text); the destructured-array category is
tried first, then the binding kind's own category, then (for plain
variables declared through an array pattern) the vars pattern. -/
def usedIgnoredMatch (cfg : Config) (b : Binding) : Option (String × String) :=
  if b.inArrayPattern && testOpt cfg.destructuredArrayIgnorePattern b.name then
    cfg.destructuredArrayIgnorePattern.map (fun ip => ("elements of array destructuring", ip.raw))
  else if b.fromCatch then
    if testOpt cfg.caughtErrorsIgnorePattern b.name then
      cfg.caughtErrorsIgnorePattern.map (fun ip => ("caught errors", ip.raw))
    else none
  else if b.isParam then
    if testOpt cfg.argsIgnorePattern b.name then
      cfg.argsIgnorePattern.map (fun ip => ("args", ip.raw))
    else none
  else
    if testOpt cfg.varsIgnorePattern b.name then
      cfg.varsIgnorePattern.map (fun ip => ("vars", ip.raw))
    else none

/-- Reporting position of an unused binding: the last write reference's
position when one exists (the last assignment), else the declaration
identifier's position. -/
def unusedPos (b : Binding) : Nat × Nat :=
  match (b.refs.filter (fun r => r.isWrite)).getLast? with
  | some r => (r.line, r.col)
  | none => (b.declLine, b.declCol)

/-- Reporting position of a used-but-ignored binding: the last reference's
position when one exists, else the declaration identifier's position. -/
def lastRefPos (b : Binding) : Nat × Nat :=
  match b.refs.getLast? with
  | some r => (r.line, r.col)
  | none => (b.declLine, b.declCol)

/-- Modelled from the spec (§4.4): build the violation for an unused
binding (`assigned = true` for verdict `unusedAssigned`). -/
def mkUnused (cfg : Config) (b : Binding) (assigned : Bool) : Violation :=
  { varName := b.name
    messageId := .unusedVar
    action := if assigned then "assigned a value" else "defined"
    additional := suffixUnused cfg b
    line := (unusedPos b).1
    col := (unusedPos b).2
    fix := mkFix b.fixCtx }

/-- Modelled from the spec (§4.3): build the "used but matches ignore
pattern" violation; it never carries a fix. -/
def mkUsedIgnored (b : Binding) (noun : String) (raw : String) : Violation :=
  { varName := b.name
    messageId := .usedIgnoredVar
    action := ""
    additional := ". Used " ++ noun ++ " must not match /" ++ raw ++ "/u"
    line := (lastRefPos b).1
    col := (lastRefPos b).2
    fix := none }

/-- Modelled from the spec (§4.2-§4.4): the per-binding pipeline.  A used
binding yields a usedIgnoredVar violation exactly when
`reportUsedIgnorePattern` is on and its name matches the applicable ignore
pattern; an unused binding yields an unusedVar violation unless exempt. -/
def analyzeBinding (cfg : Config) (lu : Option Nat) (b : Binding) : Option Violation :=
  match classify b with
  | .used =>
    if cfg.reportUsedIgnorePattern then
      match usedIgnoredMatch cfg b with
      | some nr => some (mkUsedIgnored b nr.1 nr.2)
      | none => none
    else none
  | .unusedAssigned =>
    if exemptUnused cfg lu b then none else some (mkUnused cfg b true)
  | .unusedDefined =>
    if exemptUnused cfg lu b then none else some (mkUnused cfg b false)

/-- Modelled from the spec (§4.5): analyze one scope's bindings in
declaration order. -/
def analyzeScope (cfg : Config) (s : Scope) : List Violation :=
  s.bindings.filterMap (analyzeBinding cfg (lastUsedIdx s.bindings))

/-- Modelled from the spec (§4.5): collect the violations of every scope,
depth-first. -/
def collect (cfg : Config) (p : Program) : List Violation :=
  (p.scopes.map (analyzeScope cfg)).flatten

/-- Position order on violations: line first, then column. -/
def posLe (a b : Violation) : Bool :=
  decide (a.line < b.line ∨ (a.line = b.line ∧ a.col ≤ b.col))

/-- Strict position order on violations. -/
def posLt (a b : Violation) : Bool :=
  decide (a.line < b.line ∨ (a.line = b.line ∧ a.col < b.col))

/-- Insert a violation into a position-sorted list (stable: equal
positions keep collection order). -/
def insertV (v : Violation) : List Violation → List Violation
  | [] => [v]
  | w :: ws => if posLt v w then v :: w :: ws else w :: insertV v ws

/-- Stable insertion sort by source position. -/
def sortByPos : List Violation → List Violation
  | [] => []
  | v :: vs => insertV v (sortByPos vs)

/-- Modelled from the spec (§4.5, Rule Driver): the whole analysis —
collect violations over all scopes and return them in source order
(line, then column). -/
def run (cfg : Config) (p : Program) : List Violation :=
  sortByPos (collect cfg p)

/-!
Concrete scope graphs.  Each definition below encodes the scope graph the
external parser produces for one test program of the shipped test suite
(src/unnamed/part_001); positions are 1-based (line, column) as in the
test expectations, fix ranges are 0-based character offsets into the whole
source text.
-/

/-- Scope graph of `let x = 0; foo = ((0, x++), 0);` — the binding `x` with
its initializer write at column 5 and the `x++` self-update at column 23,
whose value is the inner sequence's final value but is discarded by the
outer sequence (`foo` is an unresolved global, not a binding). -/
def xSeqDiscard : Binding :=
  { name := "x", declCol := 5, inGlobalScope := true
    refs := [{ isWrite := true, col := 5 },
             { isRead := true, isWrite := true, selfUpdate := true, col := 23 }] }

/-- Program `let x = 0; foo = ((0, x++), 0);`. -/
def progSeqDiscard : Program := ⟨[⟨[xSeqDiscard]⟩]⟩

/-- Scope graph of `let x = 0; foo = (0, x++);` — the `x++` at column 22 is
the sequence's final value and is consumed by the assignment to `foo`. -/
def xSeqConsumed : Binding :=
  { name := "x", declCol := 5, inGlobalScope := true
    refs := [{ isWrite := true, col := 5 },
             { isRead := true, isWrite := true, selfUpdate := true,
               valueConsumed := true, col := 22 }] }

/-- Program `let x = 0; foo = (0, x++);`. -/
def progSeqConsumed : Program := ⟨[⟨[xSeqConsumed]⟩]⟩

/-- Configuration `varsIgnorePattern: "^_", args: "all",
reportUsedIgnorePattern: true` of the claim-C2 test. -/
def cfg2 : Config :=
  { varsIgnorePattern := some ⟨"^_", .startsWith ("_")⟩
    args := .all
    reportUsedIgnorePattern := true }

/-- Scope graph of `const _a = 42; foo(() => _a);` — `_a` is written by its
initializer and genuinely read inside the arrow function passed to `foo`. -/
def aB2 : Binding :=
  { name := "_a", declCol := 7, inGlobalScope := true
    refs := [{ isWrite := true, col := 7 }, { isRead := true, col := 26 }] }

/-- Program `const _a = 42; foo(() => _a);`. -/
def prog2 : Program := ⟨[⟨[aB2]⟩]⟩

/-- A plain unused variable whose name matches `^_` (for exercising the
suppression half of the ignore-pattern contract). -/
def zUnused : Binding := { name := "_z" }

/-- Configuration `destructuredArrayIgnorePattern: "^_",
varsIgnorePattern: "ignore"` of the claim-C3 test. -/
def cfg3 : Config :=
  { destructuredArrayIgnorePattern := some ⟨"^_", .startsWith ("_")⟩
    varsIgnorePattern := some ⟨"ignore", .containsStr ("ignore")⟩ }

/-- Binding `array` of the claim-C3 program (line 1, used on line 2). -/
def arrayB3 : Binding :=
  { name := "array", declCol := 7, inGlobalScope := true
    refs := [{ isWrite := true, col := 7 }, { isRead := true, line := 2, col := 20 }] }

/-- Binding `a` — array-destructuring element, written by the destructuring
on line 2 column 8, never read. -/
def aB3 : Binding :=
  { name := "a", declLine := 2, declCol := 8, inArrayPattern := true, inGlobalScope := true
    refs := [{ isWrite := true, line := 2, col := 8 }]
    fixCtx := .listSlot 38 39 false }

/-- Binding `_b` — unused array-destructuring element matching `^_`. -/
def bB3 : Binding :=
  { name := "_b", declLine := 2, declCol := 11, inArrayPattern := true, inGlobalScope := true
    refs := [{ isWrite := true, line := 2, col := 11 }] }

/-- Binding `c` — array-destructuring element, written on line 2 column 15,
never read. -/
def cB3 : Binding :=
  { name := "c", declLine := 2, declCol := 15, inArrayPattern := true, inGlobalScope := true
    refs := [{ isWrite := true, line := 2, col := 15 }]
    fixCtx := .listSlot 43 46 false }

/-- Binding `fooArray` — plain unused variable on line 3. -/
def fooArrayB3 : Binding :=
  { name := "fooArray", declLine := 3, declCol := 7, inGlobalScope := true
    refs := [{ isWrite := true, line := 3, col := 7 }]
    fixCtx := .wholeDecl 57 82 false }

/-- Binding `barArray` — plain unused variable on line 4. -/
def barArrayB3 : Binding :=
  { name := "barArray", declLine := 4, declCol := 7, inGlobalScope := true
    refs := [{ isWrite := true, line := 4, col := 7 }]
    fixCtx := .wholeDecl 83 108 false }

/-- Binding `ignoreArray` — plain unused variable matching the vars
pattern `ignore`. -/
def ignoreArrayB3 : Binding :=
  { name := "ignoreArray", declLine := 5, declCol := 7, inGlobalScope := true
    refs := [{ isWrite := true, line := 5, col := 7 }] }

/-- Scope graph of the five-line claim-C3 program
`const array = [...]; const [a, _b, c] = array; const fooArray = [...];
const barArray = [...]; const ignoreArray = [...];`. -/
def prog3 : Program := ⟨[⟨[arrayB3, aB3, bB3, cB3, fooArrayB3, barArrayB3, ignoreArrayB3]⟩]⟩

/-- Configuration `caughtErrorsIgnorePattern: "message|stack"`. -/
def cfgCatch : Config :=
  { caughtErrorsIgnorePattern :=
      some ⟨"message|stack", .alt (.containsStr ("message")) (.containsStr ("stack"))⟩ }

/-- Configuration with the same pattern configured as the generic
`varsIgnorePattern` instead (and no caught-errors pattern). -/
def cfgCatchVars : Config :=
  { varsIgnorePattern :=
      some ⟨"message|stack", .alt (.containsStr ("message")) (.containsStr ("stack"))⟩ }

/-- Binding `message` destructured from the catch parameter in
`try {} catch ({ message, stack }) {}`. -/
def messageB : Binding :=
  { name := "message", declCol := 17, fromCatch := true }

/-- Binding `stack` destructured from the catch parameter. -/
def stackB : Binding :=
  { name := "stack", declCol := 26, fromCatch := true }

/-- Scope graph of `try {} catch ({ message, stack }) {}`. -/
def progCatch : Program := ⟨[⟨[messageB, stackB]⟩]⟩

/-- Configuration `ignoreRestSiblings: true` of the claim-C4 tests. -/
def cfg4 : Config := { ignoreRestSiblings := true }

/-- Binding `data` of the claim-C4 invalid program (used on line 2). -/
def dataB4 : Binding :=
  { name := "data", declCol := 7, inGlobalScope := true
    refs := [{ isWrite := true, col := 7 }, { isRead := true, line := 2, col := 29 }] }

/-- Binding `type` — destructured alongside the object rest element
`...coords` (so it has a rest sibling) and genuinely read on line 3. -/
def typeB4 : Binding :=
  { name := "type", declLine := 2, declCol := 9, hasRestSibling := true, inGlobalScope := true
    refs := [{ isWrite := true, line := 2, col := 9 },
             { isRead := true, line := 3, col := 14 }] }

/-- Binding `coords` — the object rest element itself, written by the
destructuring on line 2 column 18 and never read. -/
def coordsB4 : Binding :=
  { name := "coords", declLine := 2, declCol := 18, inGlobalScope := true
    refs := [{ isWrite := true, line := 2, col := 18 }]
    fixCtx := .listSlot 57 68 false }

/-- Scope graph of `const data = { type: ..., x: 2, y: 2 };` /
`const { type, ...coords } = data;` / ` console.log(type)`. -/
def prog4 : Program := ⟨[⟨[dataB4, typeB4, coordsB4]⟩]⟩

/-- Binding `type` of the companion valid program, where `type` is unused
but `coords` is read: `type` has a rest sibling. -/
def typeB4v : Binding :=
  { name := "type", declLine := 2, declCol := 9, hasRestSibling := true, inGlobalScope := true
    refs := [{ isWrite := true, line := 2, col := 9 }] }

/-- Binding `coords` of the valid program, read on line 3. -/
def coordsB4v : Binding :=
  { name := "coords", declLine := 2, declCol := 18, inGlobalScope := true
    refs := [{ isWrite := true, line := 2, col := 18 },
             { isRead := true, line := 3, col := 14 }] }

/-- Scope graph of `const data = ...;` / `const { type, ...coords } = data;`
/ ` console.log(coords);`. -/
def prog4v : Program := ⟨[⟨[dataB4, typeB4v, coordsB4v]⟩]⟩

/-- Source text of the claim-C5 program (34 characters). -/
def srcFoox : String := "function foox() \x7b return foox(); \x7d"

/-- Binding `foox` of `function foox() { return foox(); }` — its only
reference is the recursive call inside its own body; the whole declaration
spans the entire 34-character source, with a side-effect-free removal. -/
def fooxB : Binding :=
  { name := "foox", declCol := 10, inGlobalScope := true
    refs := [{ isRead := true, insideOwnBody := true, col := 26 }]
    fixCtx := .wholeDecl 0 34 false }

/-- Scope graph of `function foox() { return foox(); }`. -/
def progFoox : Program := ⟨[⟨[fooxB]⟩]⟩

/-- Source text of the claim-C6 program. -/
def src6 : String := "var a=10, b=0, c=null; alert(a+b)"

/-- Binding `a` of `var a=10, b=0, c=null; alert(a+b)` (used). -/
def aB6 : Binding :=
  { name := "a", declCol := 5, inGlobalScope := true
    refs := [{ isWrite := true, col := 5 }, { isRead := true, col := 30 }] }

/-- Binding `b` (used). -/
def bB6 : Binding :=
  { name := "b", declCol := 11, inGlobalScope := true
    refs := [{ isWrite := true, col := 11 }, { isRead := true, col := 32 }] }

/-- Binding `c` — written by its initializer only; one slot among three in
the declarator list, its removal range `[13, 21)` covering `, c=null`. -/
def cB6 : Binding :=
  { name := "c", declCol := 16, inGlobalScope := true
    refs := [{ isWrite := true, col := 16 }]
    fixCtx := .listSlot 13 21 false }

/-- Scope graph of `var a=10, b=0, c=null; alert(a+b)`. -/
def progC6 : Program := ⟨[⟨[aB6, bB6, cB6]⟩]⟩

/-- The `vars: "all"` configuration of the claim-C6 test. -/
def cfgAll : Config := { vars := .all }

/-- Binding `a` of `var [a] = foo;'use strict';b(00);` — written by the
array destructuring at column 6; removal is unsafe (the destructuring
source may have side effects through the iteration protocol, and removing
the statement would promote the following string literal into a directive
prologue), so the context is `unsafeSyntax`. -/
def aB7 : Binding :=
  { name := "a", declCol := 6, inArrayPattern := true, inGlobalScope := true
    refs := [{ isWrite := true, col := 6 }]
    fixCtx := .unsafeSyntax }

/-- Scope graph of `var [a] = foo;'use strict';b(00);`. -/
def prog7 : Program := ⟨[⟨[aB7]⟩]⟩

/-- Binding `foo` of `function foo(a = 1, b) {a = 2;} foo();` — genuinely
called from outside its own body. -/
def fooB8 : Binding :=
  { name := "foo", declCol := 10, inGlobalScope := true
    refs := [{ isRead := true, col := 33 }] }

/-- Parameter `a` — written by its default value (column 14) and by
`a = 2` (column 25), never read. -/
def aB8 : Binding :=
  { name := "a", declCol := 14, isParam := true, paramIndex := some 0
    refs := [{ isWrite := true, col := 14 }, { isWrite := true, col := 25 }] }

/-- Parameter `b` — never referenced; removable slot `, b` at `[18, 21)`. -/
def bB8 : Binding :=
  { name := "b", declCol := 21, isParam := true, paramIndex := some 1
    fixCtx := .listSlot 18 21 false }

/-- Scope graph of `function foo(a = 1, b) {a = 2;} foo();` — the global
scope declaring `foo`, then the function scope with parameters `a`, `b`. -/
def progC8 : Program := ⟨[⟨[fooB8]⟩, ⟨[aB8, bB8]⟩]⟩

/-- The single reference of `a ||= 1;` at statement level: a
short-circuiting logical self-assignment that reads the binding to decide
whether to assign. -/
def refLogical : Reference :=
  { isRead := true, isWrite := true, selfUpdate := true, logicalAssign := true, col := 8 }

/-- Binding `a` of `var a; a ||= 1;`. -/
def aOr : Binding :=
  { name := "a", declCol := 5, inGlobalScope := true, refs := [refLogical] }

/-- Scope graph of `var a; a ||= 1;`. -/
def progOr : Program := ⟨[⟨[aOr]⟩]⟩

/-- Binding `a` of `var a; a &&= 1;`. -/
def aAnd : Binding :=
  { name := "a", declCol := 5, inGlobalScope := true, refs := [refLogical] }

/-- Scope graph of `var a; a &&= 1;`. -/
def progAnd : Program := ⟨[⟨[aAnd]⟩]⟩

/-- Binding `a` of `var a; a ??= 1;`. -/
def aNsh : Binding :=
  { name := "a", declCol := 5, inGlobalScope := true, refs := [refLogical] }

/-- Scope graph of `var a; a ??= 1;`. -/
def progNsh : Program := ⟨[⟨[aNsh]⟩]⟩

/-!
Helper lemmas shared by the claim theorems.
-/

/-- A fix is only synthesized for a side-effect-free removable context. -/
theorem mkFix_isSome_sideEffectFree :
    ∀ fc : FixContext, (mkFix fc).isSome = true → fc.sideEffectFree = true := by
  intro fc h
  cases fc with
  | wholeDecl s e se => cases se <;> simp [mkFix, FixContext.sideEffectFree] at h ⊢
  | listSlot s e se => cases se <;> simp [mkFix, FixContext.sideEffectFree] at h ⊢
  | unsafeSyntax => simp [mkFix] at h

/-- The used-but-ignored violation never carries a fix. -/
theorem mkUsedIgnored_fix_none (b : Binding) (noun raw : String) :
    (mkUsedIgnored b noun raw).fix = none := rfl

/-!
Claim theorems.
-/

/-- C1: a write embedded in a sequence expression whose final value is
discarded does not count as a read: on `let x = 0; foo = ((0, x++), 0);`
the binding `x` gets verdict unused-assigned and exactly one violation with
action "assigned a value" (at the `x++`, line 1 column 23) is emitted,
whereas on `let x = 0; foo = (0, x++);` (the write is the sequence's
final, consumed value) `x` is used and no violation is emitted. -/
theorem claim_c1_sequence_discarded_write_not_read :
    classify xSeqDiscard = .unusedAssigned
    ∧ (run defaultCfg progSeqDiscard).map (fun v => (v.varName, v.messageId, v.action, v.line, v.col))
      = [("x", .unusedVar, "assigned a value", 1, 23)]
    ∧ classify xSeqConsumed = .used
    ∧ run defaultCfg progSeqConsumed = [] := by
  refine ⟨by decide, by decide, by decide, by decide⟩

/-- C2: a binding whose name matches its applicable ignore pattern is
suppressed when unused; but when `reportUsedIgnorePattern` is enabled and
the binding is used, a distinct usedIgnoredVar violation is emitted — on
`const _a = 42; foo(() => _a);` with varsIgnorePattern `^_` and
reportUsedIgnorePattern, exactly one usedIgnoredVar violation for `_a`
whose suffix names the pattern. -/
theorem claim_c2_report_used_ignore_pattern :
    (∀ cfg lu b, matchesIgnore cfg b = true → classify b ≠ .used →
      analyzeBinding cfg lu b = none)
    ∧ (∀ cfg lu b nr, cfg.reportUsedIgnorePattern = true → classify b = .used →
      usedIgnoredMatch cfg b = some nr →
      analyzeBinding cfg lu b = some (mkUsedIgnored b nr.1 nr.2))
    ∧ (run cfg2 prog2).map (fun v => (v.varName, v.messageId, v.additional))
      = [("_a", .usedIgnoredVar, ". Used vars must not match /^_/u")] := by
  refine ⟨?_, ?_, by decide⟩
  · intro cfg lu b h hne
    cases hc : classify b with
    | used => exact absurd hc hne
    | unusedAssigned => simp [analyzeBinding, hc, exemptUnused, h]
    | unusedDefined => simp [analyzeBinding, hc, exemptUnused, h]
  · intro cfg lu b nr hrep hused hm
    simp [analyzeBinding, hused, hrep, hm]

/-- Witness for C2: the unused `_z` matching `^_` is suppressed, and the
used `_a` of the concrete program yields the usedIgnoredVar violation. -/
theorem claim_c2_witness :
    analyzeBinding cfg2 none zUnused = none
    ∧ analyzeBinding cfg2 none aB2 = some (mkUsedIgnored aB2 ("vars") ("^_")) :=
  ⟨claim_c2_report_used_ignore_pattern.1 cfg2 none zUnused (by decide) (by decide),
   claim_c2_report_used_ignore_pattern.2.1 cfg2 none aB2 ("vars", "^_")
     (by decide) (by decide) (by decide)⟩

/-- C3: the ignore pattern is selected by the most specific applicable
category: in the five-line program, the array-destructuring elements `a`
and `c` are reported with the suffix naming
destructuredArrayIgnorePattern while the sibling plain variables
`fooArray`, `barArray` are reported with the suffix naming
varsIgnorePattern (`_b` and `ignoreArray` being exempted by their
respective patterns); and the destructured properties of a catch-clause
parameter are exempted by caughtErrorsIgnorePattern but not by the generic
varsIgnorePattern. -/
theorem claim_c3_most_specific_category :
    (run cfg3 prog3).map (fun v => (v.varName, v.additional, v.line, v.col))
      = [("a", ". Allowed unused elements of array destructuring must match /^_/u", 2, 8),
         ("c", ". Allowed unused elements of array destructuring must match /^_/u", 2, 15),
         ("fooArray", ". Allowed unused vars must match /ignore/u", 3, 7),
         ("barArray", ". Allowed unused vars must match /ignore/u", 4, 7)]
    ∧ run cfgCatch progCatch = []
    ∧ (run cfgCatchVars progCatch).map (fun v => (v.varName, v.additional))
      = [("message", ""), ("stack", "")] := by
  refine ⟨by decide, by decide, by decide⟩

/-- C4: with `ignoreRestSiblings`, a binding destructured alongside an
object rest element is exempt from the unused check, but the unused rest
element itself is still reported: the concrete program yields exactly one
violation, for `coords`, action "assigned a value" (line 2, column 18),
and the companion program where only `type` is unused yields none. -/
theorem claim_c4_rest_siblings :
    (∀ cfg lu b, cfg.ignoreRestSiblings = true → b.hasRestSibling = true →
      classify b ≠ .used → analyzeBinding cfg lu b = none)
    ∧ (run cfg4 prog4).map (fun v => (v.varName, v.action, v.line, v.col))
      = [("coords", "assigned a value", 2, 18)]
    ∧ run cfg4 prog4v = [] := by
  refine ⟨?_, by decide, by decide⟩
  intro cfg lu b h1 h2 hne
  cases hc : classify b with
  | used => exact absurd hc hne
  | unusedAssigned => simp [analyzeBinding, hc, exemptUnused, h1, h2]
  | unusedDefined => simp [analyzeBinding, hc, exemptUnused, h1, h2]

/-- Witness for C4: the unused `type` (which has a rest sibling) of the
companion valid program is suppressed under `ignoreRestSiblings`. -/
theorem claim_c4_witness : analyzeBinding cfg4 none typeB4v = none :=
  claim_c4_rest_siblings.1 cfg4 none typeB4v (by decide) (by decide) (by decide)

/-- C5: a non-exported function whose every reference lies inside its own
body is not used; on `function foox() { return foox(); }` with defaults,
exactly one violation is emitted, for `foox`, action "defined", and its
removal fix yields the empty string. -/
theorem claim_c5_recursive_function_unused :
    (∀ b : Binding, b.exported = false → (∀ r ∈ b.refs, r.insideOwnBody = true) →
      classify b ≠ .used)
    ∧ (run defaultCfg progFoox).map (fun v => (v.varName, v.action, v.fix.map (applyFix srcFoox)))
      = [("foox", "defined", some "")] := by
  refine ⟨?_, by decide⟩
  intro b hexp hall
  have hany : b.refs.any isGenuineRead = false := by
    rw [List.any_eq_false]
    intro r hr
    simp [isGenuineRead, hall r hr]
  cases hw : b.refs.any (fun r => r.isWrite) <;>
    simp [classify, hexp, hany, hw]

/-- Witness for C5: `foox` itself, whose single reference is the recursive
call inside its own body, is classified not-used. -/
theorem claim_c5_witness : classify fooxB ≠ .used :=
  claim_c5_recursive_function_unused.1 fooxB (by decide) (by decide)

/-- C6: on `var a=10, b=0, c=null; alert(a+b)` with `vars: "all"`, exactly
one violation is emitted, for `c`, action "assigned a value", and its fix
removes only the `, c=null` slot, yielding `var a=10, b=0; alert(a+b)`. -/
theorem claim_c6_declarator_slot_fix :
    (run cfgAll progC6).map (fun v => (v.varName, v.action, v.fix.map (applyFix src6)))
      = [("c", "assigned a value", some ("var a=10, b=0; alert(a+b)"))] := by
  decide

/-- C7: a violation whose binding sits in a removal-unsafe context (side
effects or syntax corruption) is still reported but carries no fix — every
offered fix comes from a side-effect-free removable context — and on
`var [a] = foo;'use strict';b(00);` the violation for `a` is emitted with
an empty suggestion list. -/
theorem claim_c7_unsafe_removal_no_fix :
    (∀ cfg lu b v, analyzeBinding cfg lu b = some v → v.fix.isSome = true →
      b.fixCtx.sideEffectFree = true)
    ∧ (∀ cfg lu b v, analyzeBinding cfg lu b = some v →
      b.fixCtx.sideEffectFree = false → v.fix = none)
    ∧ (run defaultCfg prog7).map (fun v => (v.varName, v.action, v.fix))
      = [("a", "assigned a value", none)] := by
  have key : ∀ cfg lu b v, analyzeBinding cfg lu b = some v →
      v.fix = none ∨ v.fix = mkFix b.fixCtx := by
    intro cfg lu b v hv
    cases hc : classify b with
    | used =>
      rw [analyzeBinding, hc] at hv
      cases hrep : cfg.reportUsedIgnorePattern with
      | false => simp [hrep] at hv
      | true =>
        rw [hrep] at hv
        cases hm : usedIgnoredMatch cfg b with
        | none => simp [hm] at hv
        | some nr =>
          simp only [hm, if_true] at hv
          cases hv
          exact Or.inl rfl
    | unusedAssigned =>
      rw [analyzeBinding, hc] at hv
      cases he : exemptUnused cfg lu b <;> simp [he] at hv
      cases hv
      exact Or.inr rfl
    | unusedDefined =>
      rw [analyzeBinding, hc] at hv
      cases he : exemptUnused cfg lu b <;> simp [he] at hv
      cases hv
      exact Or.inr rfl
  refine ⟨?_, ?_, by decide⟩
  · intro cfg lu b v hv hfix
    rcases key cfg lu b v hv with h | h
    · rw [h] at hfix; simp at hfix
    · rw [h] at hfix; exact mkFix_isSome_sideEffectFree _ hfix
  · intro cfg lu b v hv hse
    rcases key cfg lu b v hv with h | h
    · exact h
    · rw [h]
      cases hfc : b.fixCtx with
      | wholeDecl s e se =>
        rw [hfc] at hse
        cases se
        · simp [FixContext.sideEffectFree] at hse
        · simp [mkFix]
      | listSlot s e se =>
        rw [hfc] at hse
        cases se
        · simp [FixContext.sideEffectFree] at hse
        · simp [mkFix]
      | unsafeSyntax => simp [mkFix]

/-- Witness for C7: the safely removable `c` of the claim-C6 program shows
the offered-fix direction, and the unsafe `a` of the concrete program gets
no fix. -/
theorem claim_c7_witness :
    cB6.fixCtx.sideEffectFree = true
    ∧ (mkUnused defaultCfg aB7 true).fix = none :=
  ⟨claim_c7_unsafe_removal_no_fix.1 cfgAll none cB6 (mkUnused cfgAll cB6 true)
     (by decide) (by decide),
   claim_c7_unsafe_removal_no_fix.2.1 defaultCfg none aB7 (mkUnused defaultCfg aB7 true)
     (by decide) (by decide)⟩

/-- C10: a variable whose only reference is a statement-level logical
compound self-assignment (`a ||= 1`, `a &&= 1`, `a ??= 1`) is classified
used, and no violation is emitted for the three concrete programs. -/
theorem claim_c10_logical_self_assignment_used :
    (∀ (b : Binding) (r : Reference), b.refs = [r] → r.isRead = true →
      r.insideOwnBody = false → r.logicalAssign = true → classify b = .used)
    ∧ run defaultCfg progOr = []
    ∧ run defaultCfg progAnd = []
    ∧ run defaultCfg progNsh = [] := by
  refine ⟨?_, by decide, by decide, by decide⟩
  intro b r hrefs hr hib hla
  cases hexp : b.exported with
  | true => simp [classify, hexp]
  | false =>
    have hany : b.refs.any isGenuineRead = true := by
      rw [hrefs]
      simp [List.any, isGenuineRead, hr, hib, hla]
    simp [classify, hexp, hany]

/-- Witness for C10: the binding of `var a; a ||= 1;` is classified used. -/
theorem claim_c10_witness : classify aOr = .used :=
  claim_c10_logical_self_assignment_used.1 aOr refLogical (by decide) (by decide)
    (by decide) (by decide)

/-!
Order of the emitted violations (claim C8): the insertion sort by source
position yields a position-sorted permutation of the collected
violations.
-/

/-- The strict position order implies the reflexive one. -/
theorem posLt_imp_posLe (a b : Violation) (h : posLt a b = true) : posLe a b = true := by
  simp only [posLt, decide_eq_true_eq] at h
  simp only [posLe, decide_eq_true_eq]
  omega

/-- Totality: when `a` is not strictly before `b`, `b` is at or before `a`. -/
theorem posLt_false_posLe (a b : Violation) (h : posLt a b = false) : posLe b a = true := by
  simp only [posLt, decide_eq_false_iff_not] at h
  simp only [posLe, decide_eq_true_eq]
  omega

/-- Transitivity of the position order. -/
theorem posLe_trans (a b c : Violation) (h1 : posLe a b = true) (h2 : posLe b c = true) :
    posLe a c = true := by
  simp only [posLe, decide_eq_true_eq] at h1 h2 ⊢
  omega

/-- Inserting into a list permutes consing onto it. -/
theorem insertV_perm (v : Violation) (l : List Violation) :
    List.Perm (insertV v l) (v :: l) := by
  induction l with
  | nil => exact List.Perm.refl _
  | cons w ws ih =>
    cases h : posLt v w with
    | true => simp [insertV, h]
    | false =>
      rw [insertV, if_neg (by simp [h])]
      exact (ih.cons w).trans (List.Perm.swap v w ws)

/-- The insertion sort permutes its input. -/
theorem sortByPos_perm (l : List Violation) : List.Perm (sortByPos l) l := by
  induction l with
  | nil => exact List.Perm.refl _
  | cons v vs ih => exact (insertV_perm v (sortByPos vs)).trans (ih.cons v)

/-- Membership in an insertion. -/
theorem mem_insertV (x v : Violation) (l : List Violation) :
    x ∈ insertV v l ↔ x = v ∨ x ∈ l := by
  rw [(insertV_perm v l).mem_iff]
  simp

/-- Inserting into a position-sorted list keeps it position-sorted. -/
theorem pairwise_insertV (v : Violation) (l : List Violation)
    (h : l.Pairwise (fun a b => posLe a b = true)) :
    (insertV v l).Pairwise (fun a b => posLe a b = true) := by
  induction l with
  | nil => simp [insertV]
  | cons w ws ih =>
    rcases List.pairwise_cons.mp h with ⟨hw, hws⟩
    cases hvw : posLt v w with
    | true =>
      rw [insertV, if_pos (by simp [hvw])]
      refine List.pairwise_cons.mpr ⟨?_, h⟩
      intro x hx
      rcases List.mem_cons.mp hx with rfl | hx
      · exact posLt_imp_posLe v x hvw
      · exact posLe_trans v w x (posLt_imp_posLe v w hvw) (hw x hx)
    | false =>
      rw [insertV, if_neg (by simp [hvw])]
      refine List.pairwise_cons.mpr ⟨?_, ih hws⟩
      intro x hx
      rcases (mem_insertV x v ws).mp hx with rfl | hx
      · exact posLt_false_posLe x w hvw
      · exact hw x hx

/-- The insertion sort produces a position-sorted list. -/
theorem sortByPos_pairwise (l : List Violation) :
    (sortByPos l).Pairwise (fun a b => posLe a b = true) := by
  induction l with
  | nil => simp [sortByPos]
  | cons v vs ih => exact pairwise_insertV v (sortByPos vs) ih

/-- C8: for every configuration and program, the emitted violation
sequence is sorted by source position (line first, then column); on
`function foo(a = 1, b) {a = 2;} foo();` with defaults the violation for
`b` (line 1, column 21) precedes the one for `a` (reported at the
assignment `a = 2`, line 1, column 25), and the multi-line claim-C3
program is reported in increasing line order. -/
theorem claim_c8_source_order :
    (∀ cfg p, (run cfg p).Pairwise (fun a b => posLe a b = true))
    ∧ (run defaultCfg progC8).map (fun v => (v.varName, v.line, v.col))
      = [("b", 1, 21), ("a", 1, 25)]
    ∧ (run cfg3 prog3).map (fun v => (v.line, v.col)) = [(2, 8), (2, 15), (3, 7), (4, 7)] := by
  exact ⟨fun cfg p => sortByPos_pairwise _, by decide, by decide⟩

/-!
Re-analysis of a fixed file (claim C9).
-/

/-- Whether a binding survives the application of all offered fixes: a
binding whose violation carried a fix was removed from the file; every
other binding is untouched (an offered fix removes only the dead binding's
own slot, spec §4.4). -/
def keepB (cfg : Config) (lu : Option Nat) (b : Binding) : Bool :=
  match analyzeBinding cfg lu b with
  | some v => v.fix.isNone
  | none => true

/-- Modelled from the spec (§4.4 / §8): one scope of the fixed file. -/
def eraseScope (cfg : Config) (s : Scope) : Scope :=
  ⟨s.bindings.filter (keepB cfg (lastUsedIdx s.bindings))⟩

/-- Modelled from the spec (§4.4 / §8): the scope graph of the fixed
file — the file after the host applies every offered fix. -/
def eraseFixed (cfg : Config) (p : Program) : Program :=
  ⟨p.scopes.map (eraseScope cfg)⟩

/-- A used binding is never removed by a fix (used bindings yield at most
a usedIgnoredVar violation, which carries no fix). -/
theorem keepB_of_used (cfg : Config) (lu : Option Nat) (b : Binding)
    (hc : classify b = .used) : keepB cfg lu b = true := by
  rw [keepB, analyzeBinding, hc]
  cases hrep : cfg.reportUsedIgnorePattern with
  | false => simp
  | true =>
    cases hm : usedIgnoredMatch cfg b with
    | none => simp [hm]
    | some nr => simp [hm, mkUsedIgnored]

/-- Removing only fixed (hence unused) bindings does not change the scope's
last used parameter index. -/
theorem lastUsedIdx_filter (cfg : Config) (lu : Option Nat) (bs : List Binding) :
    lastUsedIdx (bs.filter (keepB cfg lu)) = lastUsedIdx bs := by
  induction bs with
  | nil => rfl
  | cons b bs ih =>
    cases hk : keepB cfg lu b with
    | true =>
      rw [List.filter_cons_of_pos hk, lastUsedIdx, lastUsedIdx, ih]
    | false =>
      have hnu : classify b ≠ .used := by
        intro hc
        rw [keepB_of_used cfg lu b hc] at hk
        exact absurd hk (by simp)
      rw [List.filter_cons_of_neg (by simp [hk]), ih, lastUsedIdx]
      cases hc : classify b with
      | used => exact absurd hc hnu
      | unusedAssigned => rfl
      | unusedDefined => rfl

/-- Analyzing the kept bindings equals filtering the fixless violations out
of the original analysis. -/
theorem filterMap_analyze_filter (cfg : Config) (lu : Option Nat) (bs : List Binding) :
    (bs.filter (keepB cfg lu)).filterMap (analyzeBinding cfg lu)
      = (bs.filterMap (analyzeBinding cfg lu)).filter (fun v => v.fix.isNone) := by
  induction bs with
  | nil => rfl
  | cons b bs ih =>
    cases ha : analyzeBinding cfg lu b with
    | none =>
      have hk : keepB cfg lu b = true := by simp [keepB, ha]
      rw [List.filter_cons_of_pos hk, List.filterMap_cons_none ha,
        List.filterMap_cons_none ha, ih]
    | some v =>
      have hk : keepB cfg lu b = v.fix.isNone := by simp [keepB, ha]
      cases hfn : v.fix.isNone with
      | true =>
        rw [List.filter_cons_of_pos (by rw [hk, hfn]), List.filterMap_cons_some ha,
          List.filterMap_cons_some ha, List.filter_cons_of_pos (by simp [hfn]), ih]
      | false =>
        rw [List.filter_cons_of_neg (by simp [hk, hfn]), List.filterMap_cons_some ha,
          List.filter_cons_of_neg (by simp [hfn]), ih]

/-- Per scope: the fixed file's violations are the fixless violations of
the original scope. -/
theorem analyzeScope_erase (cfg : Config) (s : Scope) :
    analyzeScope cfg (eraseScope cfg s)
      = (analyzeScope cfg s).filter (fun v => v.fix.isNone) := by
  rw [analyzeScope, eraseScope, analyzeScope]
  rw [lastUsedIdx_filter cfg (lastUsedIdx s.bindings) s.bindings]
  exact filterMap_analyze_filter cfg (lastUsedIdx s.bindings) s.bindings

/-- Over the whole program: collecting the fixed file's violations equals
filtering the fixless violations out of the original collection. -/
theorem collect_erase (cfg : Config) (p : Program) :
    collect cfg (eraseFixed cfg p)
      = (collect cfg p).filter (fun v => v.fix.isNone) := by
  rw [collect, eraseFixed, collect]
  induction p.scopes with
  | nil => rfl
  | cons s ss ih =>
    simp only [List.map_cons, List.flatten_cons, List.filter_append, ih,
      analyzeScope_erase]

/-- C9: the analysis is a pure function of (scope graph, configuration) —
two runs on the same input yield the identical violation sequence — and
re-analyzing the fixed file (the file with every fixed binding removed)
yields the same violation set as the unfixable remainder of the first run:
the violations that carried no fix, as a permutation. -/
theorem claim_c9_deterministic_idempotent :
    (∀ cfg p, run cfg p = run cfg p)
    ∧ (∀ cfg p, List.Perm (run cfg (eraseFixed cfg p))
        ((run cfg p).filter (fun v => v.fix.isNone))) := by
  refine ⟨fun _ _ => rfl, ?_⟩
  intro cfg p
  have h1 : List.Perm (run cfg (eraseFixed cfg p))
      ((collect cfg p).filter (fun v => v.fix.isNone)) := by
    rw [run, collect_erase]
    exact sortByPos_perm _
  have h2 : List.Perm ((run cfg p).filter (fun v => v.fix.isNone))
      ((collect cfg p).filter (fun v => v.fix.isNone)) :=
    (sortByPos_perm (collect cfg p)).filter _
  exact h1.trans h2.symm

end NoUnusedVars
